import Mathlib

/-!
Verification of the fx-discord-news decision engine (Freshjelly/zonepoint).

The Python sources `src/nlp/extract.py`, `src/nlp/score.py`,
`src/filters/rules.py`, `src/utils/dedup.py` and `src/scheduler/jobs.py`
are embedded shallowly below: text is `List Char`, Python dicts are
association lists updated in insertion order, `datetime.now()` becomes an
explicit rational "now" parameter, and the two opaque library calls
(`hashlib.md5` and `rapidfuzz.fuzz.ratio`) become function parameters of
the duplicate-checker operations.  Case mapping (`str.upper`/`str.lower`)
is embedded as per-character ASCII case mapping (`Char.toUpper` /
`Char.toLower`); every alias and keyword in the fixed tables is ASCII or
CJK, where the two case mappings agree.
-/

namespace FxNews

/-- Text as the Python code sees it: a sequence of characters. -/
abbrev Str := List Char

/-- Python `text.lower()` (ASCII case mapping). -/
def strLower (s : Str) : Str := s.map Char.toLower

/-- Python `text.upper()` (ASCII case mapping). -/
def strUpper (s : Str) : Str := s.map Char.toUpper

/-- Python `needle in hay` for strings: substring containment. -/
def strHas (hay needle : Str) : Bool := decide (needle <:+: hay)

/-- A regex word character, `[A-Za-z0-9_]`, as used by `\b` in
`re.search` on the ASCII alias tables of `extract.py`. -/
def isWordChar (c : Char) : Bool := c.isAlphanum || c == '_'

/-- Python `re.search(r'\b' + needle + r'\b', hay)` restricted to position
`i`: `needle` occurs at `i` and both ends fall on word boundaries. -/
def wholeWordAt (needle hay : Str) (i : Nat) : Bool :=
  needle.isPrefixOf (hay.drop i)
    && (decide (i = 0) || !isWordChar (hay.getD (i - 1) ' '))
    && (decide (hay.length ≤ i + needle.length)
        || !isWordChar (hay.getD (i + needle.length) ' '))

/-- Python `re.search(r'\b' + needle + r'\b', hay) is not None`:
`needle` occurs somewhere in `hay` as a whole word. -/
def wholeWordOccurs (needle hay : Str) : Bool :=
  (List.range (hay.length + 1)).any (fun i => wholeWordAt needle hay i)

/-- Python `hay.count(needle)`: non-overlapping occurrences, scanned left
to right (`str.count`; for an empty needle Python returns `len + 1`). -/
def countOccs : Str → Str → Nat
  | hay, [] => hay.length + 1
  | [], _ :: _ => 0
  | c :: hs, n :: ns =>
    if (n :: ns).isPrefixOf (c :: hs) then
      1 + countOccs (List.drop ns.length hs) (n :: ns)
    else
      countOccs hs (n :: ns)
termination_by hay _ => hay.length
decreasing_by
  · simp only [List.length_cons, List.length_drop]
    omega
  · simp only [List.length_cons]
    omega

/-- Python dict lookup `d.get(k)` over an association list. -/
def alookup {α β : Type} [DecidableEq α] (k : α) : List (α × β) → Option β
  | [] => none
  | p :: t => if p.1 = k then some p.2 else alookup k t

/-- Python dict assignment `d[k] = v` over an association list: replaces
the value in place if the key is present (keeping its position, as a
Python dict does), appends otherwise. -/
def upsert {α β : Type} [DecidableEq α] (k : α) (v : β) :
    List (α × β) → List (α × β)
  | [] => [(k, v)]
  | p :: t => if p.1 = k then (k, v) :: t else p :: upsert k v t

/-- Code-point lexicographic order on text, Python's `<=` on `str`,
used to embed `sorted(...)`. -/
def lexLe : Str → Str → Bool
  | [], _ => true
  | _ :: _, [] => false
  | a :: as, b :: bs => if a < b then true else if b < a then false else lexLe as bs

/-- Presentation of `lexLe` as a decidable relation for sorting. -/
def lexLeP (a b : Str) : Prop := lexLe a b = true

instance : DecidableRel lexLeP := fun a b => instDecidableEqBool _ _

/-- Python `sorted(list(set(l)))`: distinct elements in code-point order
(on the distinct elements of a set, every sort by the same total order
agrees, so insertion sort embeds Python's sort faithfully here). -/
def pySortedSet (l : List Str) : List Str := l.dedup.insertionSort lexLeP

/-! ## `src/nlp/extract.py` — EntityExtractor -/

/-- Table `EntityExtractor.CURRENCIES` (a Python set; listed in source order,
the order never matters because every result is sorted). -/
def CURRENCIES : List Str :=
  ["USD".data, "EUR".data, "JPY".data, "GBP".data, "AUD".data, "CAD".data,
   "CHF".data, "NZD".data, "CNY".data, "HKD".data, "SGD".data, "SEK".data,
   "NOK".data, "MXN".data, "ZAR".data, "TRY".data, "BRL".data, "RUB".data,
   "INR".data, "KRW".data]

/-- Table `EntityExtractor.CENTRAL_BANKS`: alias → currencies, in source order. -/
def CENTRAL_BANKS : List (Str × List Str) :=
  [("FED".data, ["USD".data]), ("FRB".data, ["USD".data]),
   ("FOMC".data, ["USD".data]), ("ECB".data, ["EUR".data]),
   ("BOJ".data, ["JPY".data]), ("日銀".data, ["JPY".data]),
   ("BOE".data, ["GBP".data]), ("RBA".data, ["AUD".data]),
   ("BOC".data, ["CAD".data]), ("SNB".data, ["CHF".data]),
   ("RBNZ".data, ["NZD".data]), ("PBOC".data, ["CNY".data])]

/-- Table `EntityExtractor.EVENT_CATEGORIES`: category → keywords, in source order. -/
def EVENT_CATEGORIES : List (Str × List Str) :=
  [("policy_rate".data,
    ["rate decision".data, "policy rate".data, "interest rate".data,
     "金利決定".data, "政策金利".data, "利上げ".data, "利下げ".data,
     "hawkish".data, "dovish".data, "tightening".data, "easing".data]),
   ("official_comment".data,
    ["fed chair".data, "ecb president".data, "governor".data,
     "speech".data, "testimony".data, "press conference".data,
     "議長".data, "総裁".data, "発言".data, "会見".data]),
   ("inflation".data,
    ["cpi".data, "pce".data, "inflation".data, "consumer price".data,
     "消費者物価".data, "インフレ".data, "物価".data]),
   ("employment".data,
    ["nfp".data, "non-farm".data, "unemployment".data, "jobless".data,
     "雇用統計".data, "失業率".data, "新規雇用".data]),
   ("gdp".data,
    ["gdp".data, "gross domestic".data, "growth".data,
     "GDP".data, "国内総生産".data, "成長率".data]),
   ("pmi".data,
    ["pmi".data, "purchasing managers".data, "manufacturing".data,
     "PMI".data, "製造業".data, "サービス業".data]),
   ("retail".data,
    ["retail sales".data, "consumer spending".data,
     "小売売上".data, "消費支出".data]),
   ("trade".data,
    ["trade balance".data, "current account".data, "exports".data,
     "貿易収支".data, "経常収支".data, "輸出".data])]

/-- Method `EntityExtractor.extract_currencies` (extract.py lines 71-92): a
currency code counts when it occurs as a whole word of the uppercased
text (the substring test before the regex is kept, though it is implied
by the regex); every alias of a mentioned central bank contributes its
currencies by plain substring test; the set is returned sorted. -/
def extract_currencies (text : Str) : List Str :=
  if text.isEmpty then []
  else
    let up := strUpper text
    let fromCodes := CURRENCIES.filter (fun c => strHas up c && wholeWordOccurs c up)
    let withBanks := CENTRAL_BANKS.foldl
      (fun acc b => if strHas up b.1 then acc ++ b.2 else acc) fromCodes
    pySortedSet withBanks

/-- Method `EntityExtractor.extract_central_banks` (extract.py lines 94-106): an
alias counts when it occurs as a plain substring of the uppercased text
(no word-boundary test, unlike currency codes); the set is returned
sorted. -/
def extract_central_banks (text : Str) : List Str :=
  if text.isEmpty then []
  else
    let up := strUpper text
    pySortedSet ((CENTRAL_BANKS.map Prod.fst).filter (fun b => strHas up b))

/-- Method `EntityExtractor.categorize_event` (extract.py lines 108-124): each
category is scored by how many of its keywords occur in the lowercased
text; the first category with the maximal positive score wins (Python's
`max` over dict insertion order), else `"other"`. -/
def categorize_event (text : Str) : Str :=
  if text.isEmpty then "other".data
  else
    let low := strLower text
    let scores := EVENT_CATEGORIES.foldl
      (fun acc p =>
        let s := p.2.countP (fun kw => strHas low kw)
        if 0 < s then acc ++ [(p.1, s)] else acc) []
    match scores with
    | [] => "other".data
    | x :: xs => (xs.foldl (fun best p => if best.2 < p.2 then p else best) x).1

/-- List `major_bases`, local to `extract_currency_pairs` (extract.py line 132). -/
def major_bases : List Str :=
  ["EUR".data, "GBP".data, "AUD".data, "NZD".data, "USD".data, "CAD".data,
   "CHF".data]

/-- Method `EntityExtractor.extract_currency_pairs` (extract.py lines 126-152):
for USD, every other present major becomes `<base>USD`; for any other
major in the input, `USD<currency>` is appended; for JPY, every present
currency of the fixed cross list becomes `<base>JPY`; duplicates removed
and the result sorted. -/
def extract_currency_pairs (currencies : List Str) : List Str :=
  if currencies.isEmpty then []
  else
    let pairs := currencies.foldl
      (fun acc currency =>
        let acc :=
          if currency = "USD".data then
            acc ++ (major_bases.filter
              (fun base => decide (¬ base = "USD".data) &&
                decide (base ∈ currencies))).map (fun base => base ++ "USD".data)
          else if currency ∈ major_bases then
            acc ++ ["USD".data ++ currency]
          else acc
        if currency = "JPY".data then
          acc ++ ((["EUR".data, "GBP".data, "AUD".data, "NZD".data,
                    "CAD".data, "CHF".data]).filter
            (fun base => decide (base ∈ currencies))).map
              (fun base => base ++ "JPY".data)
        else acc) []
    pySortedSet pairs

/-! ## `src/nlp/score.py` — ImpactScorer -/

/-- Table `ImpactScorer.CATEGORY_WEIGHTS` (score.py lines 10-20). -/
def CATEGORY_WEIGHTS : List (Str × Int) :=
  [("policy_rate".data, 90), ("official_comment".data, 70),
   ("inflation".data, 65), ("employment".data, 60), ("gdp".data, 55),
   ("pmi".data, 45), ("retail".data, 40), ("trade".data, 35),
   ("other".data, 20)]

/-- Table `ImpactScorer.HIGH_IMPACT_KEYWORDS` (score.py lines 23-29). -/
def HIGH_IMPACT_KEYWORDS : List Str :=
  ["surprise".data, "unexpected".data, "shock".data, "emergency".data,
   "crisis".data, "crash".data, "surge".data, "plunge".data, "soar".data,
   "record".data, "historic".data, "unprecedented".data,
   "サプライズ".data, "予想外".data, "急騰".data, "急落".data, "過去最".data,
   "breaking".data, "alert".data, "urgent".data]

/-- Table `ImpactScorer.LOW_IMPACT_KEYWORDS` (score.py lines 32-36). -/
def LOW_IMPACT_KEYWORDS : List Str :=
  ["expected".data, "forecast".data, "predicted".data, "inline".data,
   "unchanged".data, "steady".data, "stable".data, "minor".data,
   "予想通り".data, "変化なし".data, "安定".data, "小幅".data]

/-- Count `high_impact_count` of score.py lines 55-58: how many high-impact
keywords occur in the (already lowercased) text. -/
def highCount (textLower : Str) : Nat :=
  HIGH_IMPACT_KEYWORDS.countP (fun kw => strHas textLower kw)

/-- Count `low_impact_count` of score.py lines 61-64. -/
def lowCount (textLower : Str) : Nat :=
  LOW_IMPACT_KEYWORDS.countP (fun kw => strHas textLower kw)

/-- Method `ImpactScorer.calculate_impact_score` (score.py lines 38-81): category
weight (default 20), +10 per present high-impact keyword, -5 per present
low-impact keyword, +10 for three or more currencies, +15 for two or more
central banks, clamped to [0, 100]. -/
def calculate_impact_score (text category : Str)
    (currencies central_banks : List Str) : Int :=
  let base := (alookup category CATEGORY_WEIGHTS).getD 20
  let low := strLower text
  let score := base + (highCount low : Int) * 10 - (lowCount low : Int) * 5
  let score := if 3 ≤ currencies.length then score + 10 else score
  let score := if 2 ≤ central_banks.length then score + 15 else score
  max 0 (min 100 score)

/-- The bank table inlined in `calculate_pair_scores` (score.py lines
117-122; note it lacks PBOC and the 日銀 alias of the extractor's table). -/
def PAIR_SCORE_BANKS : List (Str × List Str) :=
  [("FED".data, ["USD".data]), ("FRB".data, ["USD".data]),
   ("FOMC".data, ["USD".data]), ("ECB".data, ["EUR".data]),
   ("BOJ".data, ["JPY".data]), ("BOE".data, ["GBP".data]),
   ("RBA".data, ["AUD".data]), ("BOC".data, ["CAD".data]),
   ("SNB".data, ["CHF".data]), ("RBNZ".data, ["NZD".data])]

/-- The per-pair score of one loop iteration of `calculate_pair_scores`
(score.py lines 99-130): +50 for a direct pair mention, up to +30 for
mentions of each leg (`pair[:3]` / `pair[3:]`), +20 per relevant central
bank and leg, clamped to [0, 100]. -/
def pairScore (textUpper : Str) (central_banks : List Str) (pair : Str) : Int :=
  let score : Int := if strHas textUpper pair then 50 else 0
  let base := pair.take 3
  let quote := pair.drop 3
  let score := score + min ((countOccs textUpper base : Int) * 10) 30
  let score := score + min ((countOccs textUpper quote : Int) * 10) 30
  let score := PAIR_SCORE_BANKS.foldl
    (fun s b =>
      if b.1 ∈ central_banks then
        let s := if base ∈ b.2 then s + 20 else s
        if quote ∈ b.2 then s + 20 else s
      else s) score
  max 0 (min 100 score)

/-- Method `ImpactScorer.calculate_pair_scores` (score.py lines 83-132): a dict
mapping every candidate pair to its score (`currencies` is accepted and
unused, as in the source). -/
def calculate_pair_scores (text : Str) (pairs : List Str)
    (currencies central_banks : List Str) : List (Str × Int) :=
  if pairs.isEmpty then []
  else
    let up := strUpper text
    pairs.foldl (fun acc pair => upsert pair (pairScore up central_banks pair) acc) []

/-! ## `src/filters/rules.py` — NewsFilter -/

/-- The `Article` model of `src/collectors/rss.py`, as far as the filters
and scheduler touch it (`ts` is an explicit rational timestamp). -/
structure Article where
  id : String
  source : String
  url : String
  ts : ℚ
  title : String
  body : String
  lang : String
  deriving DecidableEq

/-- The `Enriched` model (rules.py lines 7-14). -/
structure Enriched where
  article : Article
  currencies : List Str
  central_banks : List Str
  category : Str
  impact_score : Int
  pair_scores : List (Str × Int)
  deriving DecidableEq

/-- Configuration of `NewsFilter.__init__` configuration (rules.py lines 19-29): the
allow-list is a set, so only membership in it matters below. -/
structure NewsFilter where
  pairs_allowlist : List Str
  impact_threshold_breaking : Int
  impact_threshold_digest : Int
  pair_score_threshold : Int
  deriving DecidableEq

/-- Set `self.excluded_currencies` (rules.py lines 32-34), the same fixed set
for every filter instance. -/
def excluded_currencies : List Str :=
  ["TRY".data, "ZAR".data, "BRL".data, "RUB".data, "INR".data, "KRW".data,
   "MXN".data]

/-- Method `NewsFilter.is_breaking_news` (rules.py lines 36-51). -/
def is_breaking_news (f : NewsFilter) (e : Enriched) : Bool :=
  if e.impact_score < f.impact_threshold_breaking then false
  else e.pair_scores.any
    (fun p => decide (p.1 ∈ f.pairs_allowlist) &&
      decide (f.pair_score_threshold ≤ p.2))

/-- Method `NewsFilter.is_digest_worthy` (rules.py lines 53-69): no per-pair
score minimum, membership of some scored pair in the allow-list suffices. -/
def is_digest_worthy (f : NewsFilter) (e : Enriched) : Bool :=
  if e.impact_score < f.impact_threshold_digest then false
  else e.pair_scores.any (fun p => decide (p.1 ∈ f.pairs_allowlist))

/-- Method `NewsFilter.should_exclude` (rules.py lines 71-85): excluded when
currencies were detected and all are minor, or when the impact score is
below the hard floor 20. -/
def should_exclude (f : NewsFilter) (e : Enriched) : Bool :=
  if !e.currencies.isEmpty &&
      e.currencies.all (fun c => decide (c ∈ excluded_currencies)) then true
  else if e.impact_score < 20 then true
  else false

/-- Method `NewsFilter.filter_for_breaking` (rules.py lines 87-98): skip the
excluded, keep breaking news, preserving input order. -/
def filter_for_breaking (f : NewsFilter) (articles : List Enriched) :
    List Enriched :=
  articles.filter (fun a => !should_exclude f a && is_breaking_news f a)

/-- The comparison `list.sort(key=lambda x: x.impact_score, reverse=True)`
sorts by: descending impact score, stable. -/
def scoreDescLe (a b : Enriched) : Bool := decide (b.impact_score ≤ a.impact_score)

/-- Method `NewsFilter.filter_for_digest` (rules.py lines 100-118): skip the
excluded, keep the digest-worthy, sort by descending impact score
(stable, as Python's sort), truncate to `limit`. -/
def filter_for_digest (f : NewsFilter) (articles : List Enriched)
    (limit : Nat) : List Enriched :=
  ((articles.filter (fun a => !should_exclude f a && is_digest_worthy f a)).mergeSort
    scoreDescLe).take limit

/-! ## `src/utils/dedup.py` — DuplicateChecker

The checker's mutable state, with `datetime.now()` an explicit rational
`now` (hours), `hashlib.md5(url.encode()).hexdigest()` an arbitrary
function parameter `hash`, and `rapidfuzz.fuzz.ratio` an arbitrary
function parameter `ratio`. -/

/-- Fields `self._cache` (url-hash → first-seen time) and `self._title_cache`
(url-hash → title) of `DuplicateChecker.__init__`. -/
structure DupState where
  cache : List (String × ℚ)
  titleCache : List (String × String)
  deriving DecidableEq

/-- Python `s.lower()` on an opaque string (ASCII case mapping). -/
def strLowerS (s : String) : String := s.map Char.toLower

/-- Method `DuplicateChecker._clean_cache` (dedup.py lines 18-30): drop every
cache entry strictly older than `ttl` hours, and the title-cache entries
of the dropped keys. -/
def cleanCache (ttl now : ℚ) (st : DupState) : DupState :=
  let expired := (st.cache.filter (fun p => decide (ttl < now - p.2))).map Prod.fst
  { cache := st.cache.filter (fun p => !decide (ttl < now - p.2)),
    titleCache := st.titleCache.filter (fun p => !expired.contains p.1) }

/-- Method `DuplicateChecker.is_duplicate_url` (dedup.py lines 36-45): purge,
then test whether the url's hash is a cached key; the purge mutates the
state, so the new state is returned too. -/
def is_duplicate_url (hash : String → String) (ttl now : ℚ) (url : String)
    (st : DupState) : DupState × Bool :=
  let st' := cleanCache ttl now st
  (st', (alookup (hash url) st'.cache).isSome)

/-- Method `DuplicateChecker.is_similar_title` (dedup.py lines 47-58): some
cached title is fuzzily similar (at or above the threshold) to the given
title, both lowercased; an empty title is never similar. -/
def is_similar_title (ratio : String → String → ℚ) (thr : ℚ) (title : String)
    (st : DupState) : Bool :=
  if title = "" then false
  else st.titleCache.any
    (fun p => decide (thr ≤ ratio (strLowerS title) (strLowerS p.2)))

/-- Method `DuplicateChecker.add` (dedup.py lines 60-65): unconditionally writes
`now` and the title under the url's hash (a Python dict assignment, hence
`upsert`). -/
def dupAdd (hash : String → String) (url title : String) (now : ℚ)
    (st : DupState) : DupState :=
  { cache := upsert (hash url) now st.cache,
    titleCache := upsert (hash url) title st.titleCache }

/-- Method `DuplicateChecker.is_duplicate` (dedup.py lines 67-69): duplicate url
or similar title, on the purged state. -/
def is_duplicate (hash : String → String) (ratio : String → String → ℚ)
    (ttl thr now : ℚ) (url title : String) (st : DupState) :
    DupState × Bool :=
  let r := is_duplicate_url hash ttl now url st
  (r.1, r.2 || is_similar_title ratio thr title r.1)

/-! ## `src/scheduler/jobs.py` — the per-article job paths

`check_breaking_news` (jobs.py lines 119-169) processes each collected
article: duplicate gate, enrichment, then — with no call to
`should_exclude` — classification by `is_breaking_news` alone decides
dispatch.  `_send_digest` (jobs.py lines 181-249) likewise selects each
non-duplicate enriched article by `is_digest_worthy` alone (line 201). -/

/-- The classification applied to a non-duplicate enriched article by the
breaking-news job (jobs.py line 139): `is_breaking_news`, with no
exclusion test before it. -/
def breakingJobClassifies (f : NewsFilter) (e : Enriched) : Bool :=
  is_breaking_news f e

/-- The selection applied to a non-duplicate enriched article by the
digest job (jobs.py line 201): `is_digest_worthy`, with no exclusion test
before it. -/
def digestJobSelects (f : NewsFilter) (e : Enriched) : Bool :=
  is_digest_worthy f e

/-- The dispatch phase of `_send_digest` (jobs.py lines 214-249) over the
already-selected top articles: the loop registers every article with the
duplicate checker (line 237) while building the digest payload, and only
then is the batched message delivered (line 240); a raising delivery is
caught by the surrounding `except` (line 248), after the cache updates.
Returns the final checker state and whether delivery succeeded. -/
def send_digest_dispatch (hash : String → String) (now : ℚ)
    (top : List Enriched) (deliveryOk : Bool) (st : DupState) :
    DupState × Bool :=
  (top.foldl (fun s e => dupAdd hash e.article.url e.article.title now s) st,
   deliveryOk)

/-! ## Helper lemmas -/

/-- Substring containment survives appending text on the right. -/
theorem strHas_append_right {hay needle : Str} (k : Str)
    (h : strHas hay needle = true) : strHas (hay ++ k) needle = true := by
  unfold strHas at h ⊢
  rw [decide_eq_true_eq] at h ⊢
  obtain ⟨s, t, ht⟩ := h
  exact ⟨s, t ++ k, by rw [← ht]; simp [List.append_assoc]⟩

/-- Looking a key up after a dict assignment: the assigned key yields the
new value, any other key is untouched. -/
theorem alookup_upsert {α β : Type} [DecidableEq α] (k q : α) (v : β)
    (l : List (α × β)) :
    alookup k (upsert q v l) = if q = k then some v else alookup k l := by
  induction l with
  | nil => simp [alookup, upsert]
  | cons p t ih =>
    by_cases hpq : p.1 = q
    · by_cases hqk : q = k <;>
        simp [upsert, alookup, hpq, hqk]
    · by_cases hpk : p.1 = k
      · have hqk : ¬ q = k := fun h => hpq (h ▸ hpk)
        have hkq : ¬ k = q := fun h => hqk h.symm
        simp [upsert, alookup, hpq, hpk, hqk, hkq]
      · simp [upsert, alookup, hpq, hpk, ih]

/-- The pair written by a dict assignment is in the dict. -/
theorem mem_upsert_self {α β : Type} [DecidableEq α] (k : α) (v : β)
    (l : List (α × β)) : (k, v) ∈ upsert k v l := by
  induction l with
  | nil => simp [upsert]
  | cons p t ih =>
    by_cases hpk : p.1 = k
    · simp [upsert, hpk]
    · simp only [upsert, hpk, if_false]
      exact List.mem_cons_of_mem p ih

/-- A dict lookup succeeds exactly when the key is one of the dict's keys. -/
theorem alookup_isSome_iff {α β : Type} [DecidableEq α] (k : α)
    (l : List (α × β)) :
    (alookup k l).isSome = true ↔ k ∈ l.map Prod.fst := by
  induction l with
  | nil => simp [alookup]
  | cons p t ih =>
    by_cases hpk : p.1 = k
    · simp [alookup, hpk]
    · simp only [alookup, hpk, if_false, List.map_cons, List.mem_cons, ih]
      exact ⟨fun h => Or.inr h, fun h => h.elim (fun h => absurd h.symm hpk) id⟩

/-- Keys after a dict assignment: the assigned key and the old keys. -/
theorem mem_keys_upsert {α β : Type} [DecidableEq α] (x k : α) (v : β)
    (l : List (α × β)) :
    x ∈ (upsert k v l).map Prod.fst ↔ x = k ∨ x ∈ l.map Prod.fst := by
  induction l with
  | nil => simp [upsert, eq_comm]
  | cons p t ih =>
    by_cases hpk : p.1 = k
    · subst hpk
      simp [upsert, eq_comm]
    · simp only [upsert, hpk, if_false, List.map_cons, List.mem_cons, ih]
      tauto

/-- Dict assignment preserves distinctness of the keys. -/
theorem nodup_keys_upsert {α β : Type} [DecidableEq α] (k : α) (v : β)
    {l : List (α × β)} (h : (l.map Prod.fst).Nodup) :
    ((upsert k v l).map Prod.fst).Nodup := by
  induction l with
  | nil => simp [upsert]
  | cons p t ih =>
    rw [List.map_cons, List.nodup_cons] at h
    by_cases hpk : p.1 = k
    · subst hpk
      simpa [upsert, List.nodup_cons] using h
    · simp only [upsert, hpk, if_false, List.map_cons, List.nodup_cons]
      refine ⟨fun hmem => ?_, ih h.2⟩
      rcases (mem_keys_upsert _ _ _ _).mp hmem with h1 | h1
      · exact hpk h1
      · exact h.1 h1

/-- In a dict with distinct keys, two entries with the same key agree. -/
theorem nodup_keys_mem_unique {α β : Type} [DecidableEq α]
    {l : List (α × β)} (h : (l.map Prod.fst).Nodup) {k : α} {a b : β}
    (ha : (k, a) ∈ l) (hb : (k, b) ∈ l) : a = b := by
  induction l with
  | nil => cases ha
  | cons p t ih =>
    rw [List.map_cons, List.nodup_cons] at h
    rcases List.mem_cons.mp ha with ha1 | ha1 <;>
      rcases List.mem_cons.mp hb with hb1 | hb1
    · rw [← ha1] at hb1
      exact (Prod.mk.injEq _ _ _ _ |>.mp hb1.symm).2
    · exact absurd (List.mem_map_of_mem Prod.fst hb1)
        (by rw [← ha1] at h; exact h.1)
    · exact absurd (List.mem_map_of_mem Prod.fst ha1)
        (by rw [← hb1] at h; exact h.1)
    · exact ih h.2 ha1 hb1

/-- Assigning the same key and value twice is the same as assigning once. -/
theorem upsert_upsert_same {α β : Type} [DecidableEq α] (k : α) (v : β)
    (l : List (α × β)) : upsert k v (upsert k v l) = upsert k v l := by
  induction l with
  | nil => simp [upsert]
  | cons p t ih =>
    by_cases hpk : p.1 = k
    · simp [upsert, hpk]
    · simp [upsert, hpk, ih]

/-- Reassigning an existing key leaves the key sequence unchanged. -/
theorem map_fst_upsert_upsert {α β : Type} [DecidableEq α] (k : α) (v w : β)
    (l : List (α × β)) :
    (upsert k v (upsert k w l)).map Prod.fst = (upsert k w l).map Prod.fst := by
  induction l with
  | nil => simp [upsert]
  | cons p t ih =>
    by_cases hpk : p.1 = k
    · simp [upsert, hpk]
    · simp [upsert, hpk, ih]

/-- Clamping to [0, 100] is monotone. -/
theorem clamp_mono {a b : Int} (h : a ≤ b) :
    max 0 (min 100 a) ≤ max 0 (min 100 b) := by
  simp only [Int.max_def, Int.min_def]
  split_ifs <;> omega

/-- The clamp used by both scoring functions lands in [0, 100]. -/
theorem clamp_range (a : Int) :
    0 ≤ max 0 (min 100 a) ∧ max 0 (min 100 a) ≤ 100 := by
  constructor
  · exact le_max_left 0 _
  · exact max_le (by norm_num) (min_le_left 100 a)

/-- Presence of high-impact keywords never shrinks when text is appended. -/
theorem highCount_le_append (t k : Str) :
    highCount (strLower t) ≤ highCount (strLower (t ++ k)) := by
  unfold highCount strLower
  rw [List.map_append]
  exact List.countP_mono_left (fun a _ h => strHas_append_right _ h)

/-- Presence of low-impact keywords never shrinks when text is appended. -/
theorem lowCount_le_append (t k : Str) :
    lowCount (strLower t) ≤ lowCount (strLower (t ++ k)) := by
  unfold lowCount strLower
  rw [List.map_append]
  exact List.countP_mono_left (fun a _ h => strHas_append_right _ h)

/-! ## Concrete fixtures used by counterexamples and witnesses -/

/-- The scenario-1 text of the spec. -/
def scenarioText : Str := "Fed surprises with emergency rate hike".data

/-- An identity stand-in for the md5 hash parameter (any function works;
the hash is opaque to every claim). -/
def hashId : String → String := fun s => s

/-- A fuzzy-ratio stand-in that never finds similarity. -/
def ratioZero : String → String → ℚ := fun _ _ => 0

/-- A concrete article. -/
def artA : Article :=
  ⟨"a1", "Test Source", "https://example.com/a", 0, "Title A", "Body A", "en"⟩

/-- The filter configured as in the repository's tests and defaults:
allow-list USDJPY/EURUSD/GBPUSD, thresholds 60 / 40 / 50. -/
def filterA : NewsFilter :=
  ⟨["USDJPY".data, "EURUSD".data, "GBPUSD".data], 60, 40, 50⟩

/-- An enriched article whose only currency is minor (TRY), hence
`should_exclude` holds, yet whose impact score and USDJPY pair score pass
the breaking and digest thresholds. -/
def eMinor : Enriched :=
  ⟨artA, ["TRY".data], [], "other".data, 75, [("USDJPY".data, 60)]⟩

/-- A plainly digest-worthy, non-excluded enriched article. -/
def eWorthy : Enriched :=
  ⟨artA, ["USD".data], [], "inflation".data, 45, [("USDJPY".data, 50)]⟩

/-! ## C3 — extract_currency_pairs on ["USD","JPY","EUR"] -/

/-- C3: evaluating `extract_currency_pairs` at the claimed input
`["USD","JPY","EUR"]` yields `["EURJPY","EURUSD","USDEUR"]` — the pair
`USDJPY` claimed by the spec (and asserted by the repository's own test
`test_extract_currency_pairs`) is absent: JPY is not in `major_bases`, and
the JPY cross list does not contain USD, so no branch ever emits `USDJPY`;
the nonstandard `USDEUR` is emitted instead of nothing for EUR. -/
theorem C3_extract_currency_pairs_missing_usdjpy :
    extract_currency_pairs ["USD".data, "JPY".data, "EUR".data]
      = ["EURJPY".data, "EURUSD".data, "USDEUR".data]
    ∧ "USDJPY".data ∉ extract_currency_pairs ["USD".data, "JPY".data, "EUR".data] := by
  decide

/-! ## C4 — scenario 1: "Fed surprises with emergency rate hike" -/

/-- C4 counterexample: the claim says `categorize_event` returns
`"policy_rate"` for the scenario text, but no `policy_rate` keyword
(`"rate decision"`, `"policy rate"`, `"interest rate"`, ... — `"rate
hike"` is not among them) occurs in it, so the code returns `"other"`. -/
theorem C4_cex_category_not_policy_rate :
    categorize_event scenarioText ≠ "policy_rate".data
    ∧ categorize_event scenarioText = "other".data := by
  decide

/-- C4 amended: on the scenario text the category resolves to `"other"`
(not `"policy_rate"`), the currencies are exactly USD (via the FED alias)
and the central banks exactly FED, as claimed; the impact score with the
resolved category `"other"` is 40 (below the claimed 80), while with
category `"policy_rate"` — as the repository's scorer test supplies it —
it is 100, which is at least 80. -/
theorem C4_scenario_actual_values :
    categorize_event scenarioText = "other".data
    ∧ extract_currencies scenarioText = ["USD".data]
    ∧ extract_central_banks scenarioText = ["FED".data]
    ∧ calculate_impact_score scenarioText "other".data ["USD".data] ["FED".data] = 40
    ∧ calculate_impact_score scenarioText "policy_rate".data ["USD".data] ["FED".data] = 100 := by
  decide

/-! ## C5 — impact-score range and keyword monotonicity -/

/-- C5 counterexample: appending the high-impact keyword `"emergency"`
to `"emergency stabl"` strictly decreases the score (the append
completes the low-impact keyword `"stable"` across the seam while the
high-impact presence count stays 1), and appending the low-impact
keyword `"expected"` to `"surg"` strictly increases it (the append
completes the high-impact keyword `"surge"`). -/
theorem C5_cex_keyword_monotonicity_fails :
    "emergency".data ∈ HIGH_IMPACT_KEYWORDS
    ∧ calculate_impact_score ("emergency stabl".data ++ "emergency".data)
        "other".data [] []
      < calculate_impact_score "emergency stabl".data "other".data [] []
    ∧ "expected".data ∈ LOW_IMPACT_KEYWORDS
    ∧ calculate_impact_score "surg".data "other".data [] []
      < calculate_impact_score ("surg".data ++ "expected".data)
          "other".data [] [] := by
  decide

/-- C5 amended: the impact score always lies in [0, 100]; appending a
high-impact keyword never decreases the score provided the appended text
makes no new low-impact keyword present, and appending a low-impact
keyword never increases it provided no new high-impact keyword becomes
present (without the proviso both monotonicity claims fail, see the
counterexample). -/
theorem C5_score_range_and_guarded_monotonicity :
    ∀ (text category : Str) (currencies central_banks : List Str) (kw : Str),
      (0 ≤ calculate_impact_score text category currencies central_banks
        ∧ calculate_impact_score text category currencies central_banks ≤ 100)
      ∧ (kw ∈ HIGH_IMPACT_KEYWORDS →
          lowCount (strLower (text ++ kw)) = lowCount (strLower text) →
          calculate_impact_score text category currencies central_banks
            ≤ calculate_impact_score (text ++ kw) category currencies central_banks)
      ∧ (kw ∈ LOW_IMPACT_KEYWORDS →
          highCount (strLower (text ++ kw)) = highCount (strLower text) →
          calculate_impact_score (text ++ kw) category currencies central_banks
            ≤ calculate_impact_score text category currencies central_banks) := by
  intro text category currencies central_banks kw
  refine ⟨⟨?_, ?_⟩, ?_, ?_⟩
  · simp only [calculate_impact_score]
    exact (clamp_range _).1
  · simp only [calculate_impact_score]
    exact (clamp_range _).2
  · intro _ hlow
    have hh := highCount_le_append text kw
    simp only [calculate_impact_score]
    apply clamp_mono
    rw [hlow]
    split_ifs <;> omega
  · intro _ hhigh
    have hl := lowCount_le_append text kw
    simp only [calculate_impact_score]
    apply clamp_mono
    rw [hhigh]
    split_ifs <;> omega

/-! ## C6 — central-bank detection is substring, not whole-word -/

/-- C6 counterexample: in `"Confederation"` the alias `FED` occurs only
inside a longer word (no word boundary on its left), yet
`extract_central_banks` reports FED, because the code tests plain
substring containment — unlike `extract_currencies`, which does apply the
whole-word regex to currency codes. -/
theorem C6_cex_substring_only_match :
    extract_central_banks "Confederation".data = ["FED".data]
    ∧ wholeWordOccurs "FED".data (strUpper "Confederation".data) = false := by
  decide

/-- C6 amended: for every text, `extract_central_banks` returns exactly
the canonical alias-table codes whose alias occurs as a plain substring
of the uppercased text; occurrence as a whole word is not required. -/
theorem C6_central_banks_substring_characterization :
    ∀ (text b : Str),
      b ∈ extract_central_banks text
        ↔ (b ∈ CENTRAL_BANKS.map Prod.fst ∧ strHas (strUpper text) b = true) := by
  intro text b
  rcases eq_or_ne text [] with rfl | hne
  · constructor
    · intro hb
      simp [extract_central_banks] at hb
    · rintro ⟨hk, hs⟩
      have hb0 : b = [] := by
        have h1 : b <:+: strUpper [] := of_decide_eq_true hs
        simpa [strUpper] using h1
      subst hb0
      exact absurd hk (by decide)
  · have hcond : ¬ (List.isEmpty text = true) := by
      simpa [List.isEmpty_iff] using hne
    simp only [extract_central_banks, pySortedSet, if_neg hcond,
      List.mem_insertionSort, List.mem_dedup, List.mem_filter]

/-! ## C1 — the digest job marks articles seen before dispatch -/

/-- Once a key resolves in the cache, it still resolves after the digest
loop registers any further articles. -/
theorem isSome_after_digest_fold (hash : String → String) (now : ℚ) :
    ∀ (l : List Enriched) (st : DupState) (k : String),
      (alookup k st.cache).isSome = true →
      (alookup k ((l.foldl
        (fun s a => dupAdd hash a.article.url a.article.title now s) st).cache)).isSome = true
  | [], _, _, h => h
  | x :: xs, st, k, h => by
    simp only [List.foldl_cons]
    apply isSome_after_digest_fold hash now xs
    simp only [dupAdd]
    rw [alookup_upsert]
    split_ifs with hq
    · rfl
    · exact h

/-- C1 counterexample: a one-article digest batch whose delivery fails
(`deliveryOk = false`) still mutates the duplicate cache — the article is
registered at line 237 of jobs.py, before the dispatch at line 240, and
the surrounding `except` leaves the registration in place. The claimed
"cache left unchanged on delivery failure" is false. -/
theorem C1_cex_cache_changed_on_failed_delivery :
    (send_digest_dispatch hashId 0 [eWorthy] false ⟨[], []⟩).2 = false
    ∧ (send_digest_dispatch hashId 0 [eWorthy] false ⟨[], []⟩).1.cache
        = [("https://example.com/a", (0 : ℚ))]
    ∧ (send_digest_dispatch hashId 0 [eWorthy] false ⟨[], []⟩).1
        ≠ (⟨[], []⟩ : DupState) := by
  decide

/-- C1 amended: in `_send_digest` every article of the selected batch is
registered with the DuplicateChecker while the digest payload is built,
before the batched dispatch; so even when delivery fails, every article
of the batch is marked seen in the final state (and is therefore not
retried by later runs). -/
theorem C1_digest_marks_despite_failed_delivery :
    ∀ (hash : String → String) (now : ℚ) (top : List Enriched)
      (st : DupState) (e : Enriched), e ∈ top →
      (alookup (hash e.article.url)
        ((send_digest_dispatch hash now top false st).1.cache)).isSome = true := by
  intro hash now top st e he
  simp only [send_digest_dispatch]
  induction top generalizing st with
  | nil => cases he
  | cons x xs ih =>
    simp only [List.foldl_cons]
    rcases List.mem_cons.mp he with rfl | hxs
    · apply isSome_after_digest_fold
      simp only [dupAdd]
      rw [alookup_upsert]
      simp
    · exact ih _ hxs

/-- C1 witness: the amended theorem at a concrete one-article batch. -/
theorem C1_digest_marks_witness :
    (alookup (hashId eWorthy.article.url)
      ((send_digest_dispatch hashId 0 [eWorthy] false ⟨[], []⟩).1.cache)).isSome = true :=
  C1_digest_marks_despite_failed_delivery hashId 0 [eWorthy] ⟨[], []⟩ eWorthy
    (List.mem_singleton.mpr rfl)

/-! ## C2 — exclusion on the per-article job paths -/

/-- C2 counterexample: an enriched article that `should_exclude` rejects
(only the minor currency TRY) is nonetheless classified as breaking and
as digest-worthy by the per-article job paths, which call
`is_breaking_news` / `is_digest_worthy` directly and never evaluate
`should_exclude` (jobs.py lines 139 and 201). -/
theorem C2_cex_job_path_skips_exclusion :
    should_exclude filterA eMinor = true
    ∧ breakingJobClassifies filterA eMinor = true
    ∧ digestJobSelects filterA eMinor = true := by
  decide

/-- C2 amended: the exclusion predicate does short-circuit the breaking
and digest checks in the batch filters `filter_for_breaking` and
`filter_for_digest` — everything they return is non-excluded and
classified — but the per-article job paths (`check_breaking_news`,
`_send_digest`) do not use those filters' exclusion step, so an excluded
article can be dispatched there (see the counterexample). -/
theorem C2_exclusion_short_circuits_batch_filters :
    ∀ (f : NewsFilter) (l : List Enriched) (lim : Nat) (e : Enriched),
      (e ∈ filter_for_breaking f l →
        should_exclude f e = false ∧ is_breaking_news f e = true)
      ∧ (e ∈ filter_for_digest f l lim →
        should_exclude f e = false ∧ is_digest_worthy f e = true) := by
  intro f l lim e
  constructor
  · intro he
    rw [filter_for_breaking] at he
    rcases List.mem_filter.mp he with ⟨_, hp⟩
    rw [Bool.and_eq_true, Bool.not_eq_true'] at hp
    exact hp
  · intro he
    rw [filter_for_digest] at he
    have h1 := List.take_subset _ _ he
    rw [List.mem_mergeSort] at h1
    rcases List.mem_filter.mp h1 with ⟨_, hp⟩
    rw [Bool.and_eq_true, Bool.not_eq_true'] at hp
    exact hp

/-! ## C7 — re-adding a cached URL is not a no-op -/

/-- C7 counterexample: adding the same url and title at time 0 and again
at time 5 overwrites the recorded first-seen timestamp (dedup.py line 63
assigns unconditionally), so the second `add` changes the state — the
claimed no-op behaviour is false, and the entry's expiry moves. -/
theorem C7_cex_re_add_changes_state :
    (dupAdd hashId "u" "t" 5 (dupAdd hashId "u" "t" 0 ⟨[], []⟩)).cache
      = [("u", (5 : ℚ))]
    ∧ (dupAdd hashId "u" "t" 0 ⟨[], []⟩).cache = [("u", (0 : ℚ))]
    ∧ dupAdd hashId "u" "t" 5 (dupAdd hashId "u" "t" 0 ⟨[], []⟩)
        ≠ dupAdd hashId "u" "t" 0 ⟨[], []⟩ := by
  decide

/-- C7 amended: re-adding a URL that is already cached overwrites its
recorded timestamp with the current time (so its expiry is refreshed) and
rewrites the stored title; the set and order of cached keys are
unchanged, but the state is not — `add` is not a no-op. -/
theorem C7_re_add_overwrites_timestamp :
    ∀ (hash : String → String) (url title : String) (t t' : ℚ) (st : DupState),
      alookup (hash url)
          ((dupAdd hash url title t' (dupAdd hash url title t st)).cache) = some t'
      ∧ ((dupAdd hash url title t' (dupAdd hash url title t st)).cache).map Prod.fst
          = ((dupAdd hash url title t st).cache).map Prod.fst
      ∧ (dupAdd hash url title t' (dupAdd hash url title t st)).titleCache
          = (dupAdd hash url title t st).titleCache := by
  intro hash url title t t' st
  refine ⟨?_, ?_, ?_⟩
  · simp only [dupAdd]
    rw [alookup_upsert]
    simp
  · simp only [dupAdd]
    exact map_fst_upsert_upsert _ _ _ _
  · simp only [dupAdd]
    exact upsert_upsert_same _ _ _

/-! ## C8 — filter_for_digest: limit, provenance, descending sort -/

/-- C8: `filter_for_digest` returns at most `limit` items, each a
non-excluded digest-worthy element of the input, sorted by non-increasing
impact score. -/
theorem C8_filter_for_digest_spec :
    ∀ (f : NewsFilter) (articles : List Enriched) (limit : Nat),
      (filter_for_digest f articles limit).length ≤ limit
      ∧ (∀ e ∈ filter_for_digest f articles limit,
          e ∈ articles ∧ should_exclude f e = false ∧ is_digest_worthy f e = true)
      ∧ List.Pairwise (fun a b => b.impact_score ≤ a.impact_score)
          (filter_for_digest f articles limit) := by
  intro f articles limit
  refine ⟨?_, ?_, ?_⟩
  · rw [filter_for_digest, List.length_take]
    exact min_le_left _ _
  · intro e he
    rw [filter_for_digest] at he
    have h1 := List.take_subset _ _ he
    rw [List.mem_mergeSort] at h1
    rcases List.mem_filter.mp h1 with ⟨hmem, hp⟩
    rw [Bool.and_eq_true, Bool.not_eq_true'] at hp
    exact ⟨hmem, hp.1, hp.2⟩
  · rw [filter_for_digest]
    apply List.Pairwise.sublist (List.take_sublist _ _)
    have htrans : ∀ a b c : Enriched,
        scoreDescLe a b → scoreDescLe b c → scoreDescLe a c := by
      intro a b c hab hbc
      simp only [scoreDescLe, decide_eq_true_eq] at *
      exact le_trans hbc hab
    have htotal : ∀ a b : Enriched, scoreDescLe a b || scoreDescLe b a := by
      intro a b
      simp only [scoreDescLe, Bool.or_eq_true, decide_eq_true_eq]
      exact le_total _ _
    have hs := List.sorted_mergeSort htrans htotal
      (articles.filter (fun a => !should_exclude f a && is_digest_worthy f a))
    exact hs.imp (fun h => by simpa [scoreDescLe] using h)

/-! ## C9 — add-then-check and TTL expiry of the DuplicateChecker -/

/-- C9: immediately after `add(url, title)` the checker reports a
duplicate; and once strictly more than `ttl` hours have passed since the
add — with no re-add, and no surviving cached title similar to `title` —
the same check reports no duplicate, because the purge drops the expired
entry before the tests run. -/
theorem C9_dedup_add_then_check :
    ∀ (hash : String → String) (ratio : String → String → ℚ) (ttl thr : ℚ)
      (url title : String) (t0 t1 : ℚ) (st : DupState),
      0 ≤ ttl →
      (st.cache.map Prod.fst).Nodup →
      ((is_duplicate hash ratio ttl thr t0 url title
          (dupAdd hash url title t0 st)).2 = true
       ∧ (ttl < t1 - t0 →
          (∀ p ∈ (cleanCache ttl t1 (dupAdd hash url title t0 st)).titleCache,
            ratio (strLowerS title) (strLowerS p.2) < thr) →
          (is_duplicate hash ratio ttl thr t1 url title
            (dupAdd hash url title t0 st)).2 = false)) := by
  intro hash ratio ttl thr url title t0 t1 st httl hnd
  constructor
  · simp only [is_duplicate, is_duplicate_url]
    rw [Bool.or_eq_true_iff]
    left
    rw [alookup_isSome_iff]
    have hmem : (hash url, t0) ∈
        (cleanCache ttl t0 (dupAdd hash url title t0 st)).cache := by
      simp only [cleanCache, dupAdd]
      rw [List.mem_filter]
      refine ⟨mem_upsert_self _ _ _, ?_⟩
      rw [Bool.not_eq_true', decide_eq_false_iff_not]
      intro hlt
      rw [sub_self] at hlt
      exact absurd httl (not_le.mpr hlt)
    exact List.mem_map_of_mem Prod.fst hmem
  · intro hlt hsim
    simp only [is_duplicate, is_duplicate_url]
    rw [Bool.or_eq_false_iff]
    constructor
    · apply Bool.eq_false_iff.mpr
      intro hsome
      rw [alookup_isSome_iff] at hsome
      obtain ⟨pr, hpr, hfst⟩ := List.mem_map.mp hsome
      simp only [cleanCache, dupAdd] at hpr
      rcases List.mem_filter.mp hpr with ⟨hin, hpred⟩
      have hnd2 := nodup_keys_upsert (hash url) t0 hnd
      have hsnd : pr.2 = t0 := by
        have h1 : (pr.1, pr.2) ∈ upsert (hash url) t0 st.cache := hin
        rw [hfst] at h1
        exact nodup_keys_mem_unique hnd2 h1 (mem_upsert_self _ _ _)
      rw [Bool.not_eq_true', decide_eq_false_iff_not] at hpred
      rw [hsnd] at hpred
      exact hpred hlt
    · simp only [is_similar_title]
      split_ifs with h0
      · rfl
      · apply Bool.eq_false_iff.mpr
        intro hany
        rw [List.any_eq_true] at hany
        obtain ⟨p, hp, hdec⟩ := hany
        rw [decide_eq_true_eq] at hdec
        exact absurd hdec (not_le.mpr (hsim p hp))

/-- C9 witness: identity hash, never-similar ratio, TTL 24h, add at time
0, immediate check true, check at time 25 false. -/
theorem C9_dedup_witness :
    (is_duplicate hashId ratioZero 24 85 0 "u" "t"
      (dupAdd hashId "u" "t" 0 ⟨[], []⟩)).2 = true
    ∧ (is_duplicate hashId ratioZero 24 85 25 "u" "t"
      (dupAdd hashId "u" "t" 0 ⟨[], []⟩)).2 = false := by
  have h := C9_dedup_add_then_check hashId ratioZero 24 85 "u" "t" 0 25
    ⟨[], []⟩ (by norm_num) (by simp)
  have hempty : (cleanCache 24 25 (dupAdd hashId "u" "t" 0 ⟨[], []⟩)).titleCache = [] := by
    simp only [cleanCache, dupAdd, upsert, hashId]
    norm_num
  refine ⟨h.1, h.2 (by norm_num) ?_⟩
  intro p hp
  rw [hempty] at hp
  cases hp

/-! ## C10 — calculate_pair_scores keys are exactly the candidate pairs -/

/-- Keys reachable through the score-accumulating fold: exactly the
folded pairs plus whatever already resolved in the accumulator. -/
theorem alookup_foldl_upsert_isSome {β : Type} (f : Str → β) :
    ∀ (pairs : List Str) (acc : List (Str × β)) (p : Str),
      (alookup p (pairs.foldl (fun a q => upsert q (f q) a) acc)).isSome = true
        ↔ p ∈ pairs ∨ (alookup p acc).isSome = true
  | [], acc, p => by simp
  | q :: qs, acc, p => by
    simp only [List.foldl_cons]
    rw [alookup_foldl_upsert_isSome f qs]
    rw [alookup_upsert]
    by_cases hq : q = p
    · subst hq
      simp
    · have hq' : ¬ p = q := fun h => hq h.symm
      simp only [if_neg hq, List.mem_cons]
      constructor
      · rintro (h | h)
        · exact Or.inl (Or.inr h)
        · exact Or.inr h
      · rintro (h | h)
        · rcases h with h1 | h2
          · exact absurd h1 hq'
          · exact Or.inl h2
        · exact Or.inr h

/-- C10: `calculate_pair_scores` returns a map whose key set is exactly
the input pair list — every candidate pair receives an entry, none is
dropped (so `is_digest_worthy`, which only inspects the keys, depends on
pair presence alone). -/
theorem C10_pair_scores_keys_exact :
    ∀ (text : Str) (pairs currencies central_banks : List Str) (p : Str),
      (alookup p (calculate_pair_scores text pairs currencies central_banks)).isSome = true
        ↔ p ∈ pairs := by
  intro text pairs currencies central_banks p
  simp only [calculate_pair_scores]
  split_ifs with h
  · rw [List.isEmpty_iff] at h
    subst h
    simp [alookup]
  · have h2 := alookup_foldl_upsert_isSome
      (fun q => pairScore (strUpper text) central_banks q) pairs [] p
    simp only [alookup, Option.isSome_none, Bool.false_eq_true, or_false] at h2
    exact h2

end FxNews
